import Mathlib

/-!
Verification of the recording/overdub/playback timeline engine of the
YT-Video-Mixer repository (`create.html`, `playback.js`, `gallery.js`).

The JavaScript source is shallowly embedded: the module-level mutable
variables (`videos`, `recordingSessions`, `hijackedControls`, ...) become an
explicit `EngineState` record, and each source function becomes a pure state
transformer of the same name.  JS objects keyed by slot number are modelled
as association lists with unique keys; JS `Set`s (insertion ordered) as
duplicate-free lists; the string keys `` `${slot}-${controlType}` `` — which
the source builds with template literals and splits back with
`split('-')`/`parseInt`, an exact round trip for the keys that occur — as
pairs `Nat × CtrlType`.  Wall-clock `Date.now()` values and millisecond
timestamps are integers in the source (sample timestamps are differences of
`Date.now()` values) and are modelled as `Int`.  Keyframe time offsets are
seconds and may be fractional; they are only ever compared against `null`
here, and are modelled as `Option Rat`.
-/

/-- The three control types of a slot's control log
(`'volume' | 'opacity' | 'timestamps'` in the source). -/
inductive CtrlType where
  | volume
  | opacity
  | timestamps
deriving DecidableEq

/-- A recorded volume/opacity data point: `{timestamp, value}`
(`recordControlChange`, create.html). -/
structure Sample where
  timestamp : Int
  value : Int
deriving DecidableEq

/-- Action of a recorded keyframe event (`recordTimestampChange`). -/
inductive KfAction where
  | set
  | jump
  | delete
deriving DecidableEq

/-- A recorded keyframe event: `{timestamp, keyframeIndex, time, action}`;
`time` is `null` for `delete` events. -/
structure TsEvent where
  timestamp : Int
  keyframeIndex : Nat
  time : Option Rat
  action : KfAction
deriving DecidableEq

/-- Per-slot control log: `{volume: [], opacity: [], timestamps: []}`
(the value stored at `controlData[slot]`). -/
structure SlotData where
  volume : List Sample
  opacity : List Sample
  timestamps : List TsEvent
deriving DecidableEq

/-- One recording session (`currentRecordingData` and the elements of
`recordingSessions`): `{session, startTime, duration, controlData}`.
`controlData` is a JS object keyed by slot number, modelled as an
association list with unique keys. -/
structure Session where
  session : Nat
  startTime : Int
  duration : Int
  controlData : List (Nat × SlotData)
deriving DecidableEq

/-- One loaded track (an element of the `videos` array in create.html):
source reference, up to three keyframes, the lock / cross-module-link /
volume-opacity-link flags and the current control values. -/
structure Video where
  url : String
  videoId : String
  title : String
  keyframes : List (Option Rat)
  locked : Bool
  linked : Bool
  volumeOpacityLinked : Bool
  volume : Int
  opacity : Int
deriving DecidableEq

/-- A hijack/throttle key: the pair the source encodes as the string
`` `${slot}-${controlType}` ``. -/
abbrev ControlKey := Nat × CtrlType

/-- Lookup of `controlData[slot]` in a slot-keyed JS object modelled as an
association list (first matching key, as JS object keys are unique). -/
def getSlotData : List (Nat × SlotData) → Nat → Option SlotData
  | [], _ => none
  | p :: rest, slot => if p.1 = slot then some p.2 else getSlotData rest slot

/-- Lookup `videos[slot]`: out-of-range and `null` both behave as "no
video", like the falsy checks in the source. -/
def videoAt (videos : List (Option Video)) (slot : Nat) : Option Video :=
  videos.getD slot none

/-- The filter `session.controlData[slot][controlType] =
controlData[slot][controlType].filter(point => point.timestamp < fromTime)`
applied to the one list selected by `controlType`
(body of `deleteFutureRecordingData`, create.html:2677). -/
def truncateCtrl (controlType : CtrlType) (fromTime : Int) (sd : SlotData) : SlotData :=
  match controlType with
  | .volume => { sd with volume := sd.volume.filter (fun point => point.timestamp < fromTime) }
  | .opacity => { sd with opacity := sd.opacity.filter (fun point => point.timestamp < fromTime) }
  | .timestamps => { sd with timestamps := sd.timestamps.filter (fun point => point.timestamp < fromTime) }

/-- `deleteFutureRecordingData(slot, controlType, fromTime)`
(create.html:2677): for every session in `recordingSessions` (the
already-finalized sessions; the in-progress one lives in
`currentRecordingData`), removes the samples with `timestamp >= fromTime`
from that session's log for the given `(slot, controlType)` key. -/
def deleteFutureRecordingData (slot : Nat) (controlType : CtrlType) (fromTime : Int)
    (sessions : List Session) : List Session :=
  sessions.map fun session =>
    { session with
      controlData := session.controlData.map fun p =>
        if p.1 = slot then (p.1, truncateCtrl controlType fromTime p.2) else p }

/-- A uniform read-only view of the entries of one `(slot, controlType)`
log: volume/opacity samples on the left, keyframe events on the right.
Used only to state properties across the three heterogeneous lists. -/
def ctrlEntries (sd : SlotData) (ct : CtrlType) : List (Sample ⊕ TsEvent) :=
  match ct with
  | .volume => sd.volume.map Sum.inl
  | .opacity => sd.opacity.map Sum.inl
  | .timestamps => sd.timestamps.map Sum.inr

/-- Timestamp of a log entry in the uniform view. -/
def entryTs : Sample ⊕ TsEvent → Int
  | .inl s => s.timestamp
  | .inr e => e.timestamp

/-- The `(slot, controlType)` log of a session in the uniform view
(missing slots read as an empty log, as in the source's
`if (session.controlData[slot] && ...)` guard). -/
def sessionEntries (s : Session) (slot : Nat) (ct : CtrlType) : List (Sample ⊕ TsEvent) :=
  ((getSlotData s.controlData slot).map (fun sd => ctrlEntries sd ct)).getD []

section TruncationLemmas

theorem ctrlEntries_truncateCtrl (sd : SlotData) (ct : CtrlType) (t : Int) :
    ctrlEntries (truncateCtrl ct t sd) ct = (ctrlEntries sd ct).filter (fun e => entryTs e < t) := by
  cases ct <;>
    simp [ctrlEntries, truncateCtrl, List.filter_map, Function.comp_def, entryTs]

theorem ctrlEntries_truncateCtrl_other (sd : SlotData) (ct ct' : CtrlType) (t : Int)
    (h : ct' ≠ ct) :
    ctrlEntries (truncateCtrl ct t sd) ct' = ctrlEntries sd ct' := by
  cases ct <;> cases ct' <;> simp_all [ctrlEntries, truncateCtrl]

theorem getSlotData_map_update (cd : List (Nat × SlotData)) (slot : Nat)
    (f : SlotData → SlotData) (slot' : Nat) :
    getSlotData (cd.map fun p => if p.1 = slot then (p.1, f p.2) else p) slot'
      = if slot' = slot then (getSlotData cd slot).map f else getSlotData cd slot' := by
  induction cd with
  | nil => simp [getSlotData]
  | cons p rest ih =>
      by_cases h1 : p.1 = slot <;> by_cases h2 : p.1 = slot' <;>
        by_cases h3 : slot' = slot <;> simp_all [getSlotData]

theorem truncateCtrl_of_all_lt (sd : SlotData) (ct : CtrlType) (t : Int)
    (h : ∀ e ∈ ctrlEntries sd ct, entryTs e < t) :
    truncateCtrl ct t sd = sd := by
  cases ct <;>
  · simp only [truncateCtrl]
    rw [List.filter_eq_self.2]
    intro a ha
    simp only [decide_eq_true_eq]
    first
      | exact h (Sum.inl a) (by simpa [ctrlEntries] using ha)
      | exact h (Sum.inr a) (by simpa [ctrlEntries] using ha)

theorem truncateCtrl_idem (sd : SlotData) (ct : CtrlType) (t : Int) :
    truncateCtrl ct t (truncateCtrl ct t sd) = truncateCtrl ct t sd := by
  cases ct <;> simp [truncateCtrl, List.filter_filter]

end TruncationLemmas

/-- C1: Truncation monotonicity of `deleteFutureRecordingData`: for every
finalized session and the targeted `(slot, controlType)` key, the truncated
log is exactly the original filtered to timestamps `< t` (so nothing at or
after `t` survives and the earlier samples keep their values and order),
logs for every other `(slot, controlType)` key and all other session fields
are untouched, truncating twice equals truncating once, and when nothing in
the targeted logs is at or after `t` the whole operation is the identity. -/
theorem truncation_monotonicity (sessions : List Session) (slot : Nat) (ct : CtrlType) (t : Int) :
    (deleteFutureRecordingData slot ct t sessions).length = sessions.length ∧
    (∀ (i : Nat) (s : Session), sessions[i]? = some s →
      ∃ s', (deleteFutureRecordingData slot ct t sessions)[i]? = some s' ∧
        sessionEntries s' slot ct
          = (sessionEntries s slot ct).filter (fun e => entryTs e < t) ∧
        (∀ e ∈ sessionEntries s' slot ct, entryTs e < t) ∧
        (∀ slot' ct', ¬(slot' = slot ∧ ct' = ct) →
          sessionEntries s' slot' ct' = sessionEntries s slot' ct') ∧
        s'.session = s.session ∧ s'.startTime = s.startTime ∧ s'.duration = s.duration) ∧
    deleteFutureRecordingData slot ct t (deleteFutureRecordingData slot ct t sessions)
      = deleteFutureRecordingData slot ct t sessions ∧
    ((∀ s ∈ sessions, ∀ p ∈ s.controlData, p.1 = slot →
        ∀ e ∈ ctrlEntries p.2 ct, entryTs e < t) →
      deleteFutureRecordingData slot ct t sessions = sessions) := by
  refine ⟨by simp [deleteFutureRecordingData], ?_, ?_, ?_⟩
  · intro i s hs
    refine ⟨{ s with controlData :=
        s.controlData.map fun p => if p.1 = slot then (p.1, truncateCtrl ct t p.2) else p },
      by simp [deleteFutureRecordingData, hs], ?_, ?_, ?_, rfl, rfl, rfl⟩
    · simp only [sessionEntries, getSlotData_map_update, if_pos rfl]
      cases h : getSlotData s.controlData slot with
      | none => simp
      | some sd => simp [ctrlEntries_truncateCtrl]
    · intro e he
      simp only [sessionEntries, getSlotData_map_update, if_pos rfl] at he
      cases h : getSlotData s.controlData slot with
      | none => simp [h] at he
      | some sd =>
          rw [h] at he
          simp [ctrlEntries_truncateCtrl, List.mem_filter] at he
          exact he.2
    · intro slot' ct' hne
      by_cases hslot : slot' = slot
      · subst hslot
        have hct : ct' ≠ ct := fun h => hne ⟨rfl, h⟩
        simp only [sessionEntries, getSlotData_map_update, if_pos rfl]
        cases h : getSlotData s.controlData slot' with
        | none => simp
        | some sd => simp [ctrlEntries_truncateCtrl_other _ _ _ _ hct]
      · simp [sessionEntries, getSlotData_map_update, hslot]
  · simp only [deleteFutureRecordingData, List.map_map]
    refine List.map_congr_left fun s _ => ?_
    simp only [Function.comp_apply, List.map_map]
    congr 1
    refine List.map_congr_left fun p _ => ?_
    by_cases h : p.1 = slot <;> simp [h, truncateCtrl_idem]
  · intro hall
    simp only [deleteFutureRecordingData]
    have : ∀ s ∈ sessions,
        (fun session : Session => { session with controlData := session.controlData.map (fun p => if p.1 = slot then (p.1, truncateCtrl ct t p.2) else p) }) s = id s := by
      intro s hs
      have hcd : s.controlData.map
          (fun p => if p.1 = slot then (p.1, truncateCtrl ct t p.2) else p) = s.controlData := by
        have : ∀ p ∈ s.controlData,
            (fun p => if p.1 = slot then (p.1, truncateCtrl ct t p.2) else p) p = id p := by
          intro p hp
          by_cases h : p.1 = slot
          · simp only [if_pos h, id]
            rw [truncateCtrl_of_all_lt _ _ _ (hall s hs p hp h)]
          · simp [h]
        rw [List.map_congr_left this, List.map_id]
      simp [hcd]
    rw [List.map_congr_left this, List.map_id]

/-- Concrete session used to witness the truncation theorem. -/
def truncWSession : Session :=
  { session := 1, startTime := 0, duration := 60000,
    controlData := [(0, { volume := [⟨0, 50⟩, ⟨1500, 80⟩], opacity := [⟨10, 30⟩], timestamps := [] })] }

theorem truncation_monotonicity_witness :
    deleteFutureRecordingData 0 CtrlType.volume 2000 [truncWSession] = [truncWSession] ∧
    (deleteFutureRecordingData 0 CtrlType.volume 1000 [truncWSession]).length = 1 ∧
    (∃ s', (deleteFutureRecordingData 0 CtrlType.volume 1000 [truncWSession])[0]? = some s' ∧
      (∀ e ∈ sessionEntries s' 0 CtrlType.volume, entryTs e < 1000)) := by
  refine ⟨(truncation_monotonicity [truncWSession] 0 .volume 2000).2.2.2 ?_,
    (truncation_monotonicity [truncWSession] 0 .volume 1000).1, ?_⟩
  · intro s hs p hp _ e he
    simp only [List.mem_singleton] at hs
    subst hs
    simp only [truncWSession, List.mem_singleton] at hp
    subst hp
    simp only [ctrlEntries, List.map_cons, List.map_nil, List.mem_cons, List.not_mem_nil,
      or_false] at he
    rcases he with h | h <;> subst h <;> decide
  obtain ⟨s', h1, _, h3, _⟩ :=
    (truncation_monotonicity [truncWSession] 0 .volume 1000).2.1 0 truncWSession rfl
  exact ⟨s', h1, h3⟩

/-! ## Replayer value computation

`playbackVolumeData` / `playbackOpacityData` exist twice: in create.html
(overdub replay, lines 1985/2028) and in playback.js (playback page, lines
497/559).  Their write-to-player side effects are out of scope; what is
embedded is the value each computes for a given log and elapsed time.  The
JS arithmetic is IEEE double; on the integer-valued samples and millisecond
times used here it is exact, and the one fractional intermediate
(`timeProgress`) is modelled with `Rat`. -/

/-- The scan loop of create.html's `playbackVolumeData` (line 1990): keeps
the last sample with `timestamp <= currentTime` as `currentPoint` and stops
at the first sample with `timestamp > currentTime` (`nextPoint`). -/
def findPoints : List Sample → Int → Option Sample → Option Sample × Option Sample
  | [], _, currentPoint => (currentPoint, none)
  | p :: rest, currentTime, currentPoint =>
    if p.timestamp ≤ currentTime then findPoints rest currentTime (some p)
    else (currentPoint, some p)

/-- JS `Math.round`: round half toward positive infinity. -/
def jsRound (x : Rat) : Int := (x + 1 / 2).floor

theorem jsRound_eq_floor (x : Rat) : jsRound x = ⌊x + 1 / 2⌋ := by
  rw [jsRound, Rat.floor_def', ← Rat.floor_def]

theorem jsRound_eq (x : Rat) (n : Int) (h1 : (n : Rat) ≤ x + 1 / 2) (h2 : x + 1 / 2 < n + 1) :
    jsRound x = n := by
  rw [jsRound_eq_floor]
  exact Int.floor_eq_iff.2 ⟨h1, by exact_mod_cast h2⟩

/-- The volume value create.html's `playbackVolumeData` (line 1985) applies
at `currentTime`: the current point's value, linearly interpolated toward
the next point (and rounded) only when the gap between the two samples is
under 500 ms; `none` when no sample is at or before `currentTime` (the
source then applies nothing). -/
def interpVolumeTarget (volumeData : List Sample) (currentTime : Int) : Option Int :=
  match findPoints volumeData currentTime none with
  | (none, _) => none
  | (some currentPoint, nextPoint) =>
    match nextPoint with
    | some nextP =>
      let timeDiff := nextP.timestamp - currentPoint.timestamp
      let valueDiff := nextP.value - currentPoint.value
      if timeDiff < 500 then
        some (jsRound ((currentPoint.value : Rat) +
          (valueDiff : Rat) * (((currentTime - currentPoint.timestamp : Int) : Rat) / (timeDiff : Rat))))
      else some currentPoint.value
    | none => some currentPoint.value

/-- The scan loop shared by playback.js's `playbackVolumeData` and
`playbackOpacityData` (lines 502/564): the value of the last sample with
`timestamp <= currentTime`, else the accumulator. -/
def playbackJsScan : List Sample → Int → Int → Int
  | [], _, target => target
  | p :: rest, currentTime, target =>
    if p.timestamp ≤ currentTime then playbackJsScan rest currentTime p.value else target

/-- The volume value playback.js's `playbackVolumeData` (line 497) applies
at `currentTime`: the value of the last sample at or before `currentTime`,
defaulting to the first sample's value; `none` on an empty log (early
return). No interpolation. -/
def playbackJsVolumeTarget (volumeData : List Sample) (currentTime : Int) : Option Int :=
  match volumeData with
  | [] => none
  | first :: _ => some (playbackJsScan volumeData currentTime first.value)

/-- The opacity value create.html's `playbackOpacityData` (line 2028)
applies: the first sample within 100 ms of `currentTime` (`find`), no
interpolation. -/
def createOpacityTarget (opacityData : List Sample) (currentTime : Int) : Option Int :=
  (opacityData.find? fun point => (point.timestamp - currentTime).natAbs < 100).map (·.value)

/-- The opacity value playback.js's `playbackOpacityData` (line 559)
applies: same last-sample-at-or-before scan as its volume replay. -/
def playbackJsOpacityTarget (opacityData : List Sample) (currentTime : Int) : Option Int :=
  match opacityData with
  | [] => none
  | first :: _ => some (playbackJsScan opacityData currentTime first.value)

/-- One tick of create.html's `applyVolumeSmooth` (line 1945) as a function
from (last-applied volume, target) to the volume actually set: small
differences (≤ 2) are applied directly, larger ones move by a step of 2
(or 5 when the difference exceeds 20) toward the target, clamped at the
target by the `Math.min`/`Math.max`. -/
def applyVolumeSmoothStep (currentVolume targetVolume : Int) : Int :=
  let volumeDiff := (targetVolume - currentVolume).natAbs
  if volumeDiff ≤ 2 then targetVolume
  else
    let step : Int := if volumeDiff > 20 then 5 else 2
    let nextVolume := currentVolume + (if targetVolume > currentVolume then step else -step)
    if targetVolume > currentVolume then min nextVolume targetVolume
    else max nextVolume targetVolume

/-- One tick of playback.js's `applyVolumeSmooth` (line 518): differences
≤ 5 are applied directly, larger ones move by `Math.min(3, volumeDiff)`
toward the target, clamped at the target. -/
def playbackApplyVolumeSmoothStep (currentVolume targetVolume : Int) : Int :=
  let volumeDiff := (targetVolume - currentVolume).natAbs
  if volumeDiff ≤ 5 then targetVolume
  else
    let step : Int := min 3 (volumeDiff : Int)
    let nextVolume := currentVolume + (if targetVolume > currentVolume then step else -step)
    if targetVolume > currentVolume then min nextVolume targetVolume
    else max nextVolume targetVolume

/-- C3 counterexample: with volume samples (0,50) and (1000,80) the
overdub replayer computes 50 at elapsed 500 — the two samples are 1000 ms
apart, at or beyond the 500 ms interpolation window, so no interpolation
happens — and 50 is not strictly between 50 and 80 (the claim expects
≈ 65). -/
theorem simple_replay_claim_false :
    interpVolumeTarget [⟨0, 50⟩, ⟨1000, 80⟩] 500 = some 50 ∧
    ¬((50 : Int) < 50 ∧ (50 : Int) < 80) := by
  decide

/-- C3 (amended): with volume samples (0,50) and (1000,80), overdub replay
computes volume 50 at elapsed 500 (the 1000 ms sample gap is not below the
500 ms interpolation window, so the current sample's value is used as-is)
and 80 at elapsed 2000 (last sample held); with samples (0,50) and (400,80),
whose gap is inside the window, elapsed 200 yields the interpolated 65. -/
theorem simple_replay_scenario :
    interpVolumeTarget [⟨0, 50⟩, ⟨1000, 80⟩] 500 = some 50 ∧
    interpVolumeTarget [⟨0, 50⟩, ⟨1000, 80⟩] 2000 = some 80 ∧
    interpVolumeTarget [⟨0, 50⟩, ⟨400, 80⟩] 200 = some 65 := by
  refine ⟨by decide, by decide, ?_⟩
  have h : interpVolumeTarget [⟨0, 50⟩, ⟨400, 80⟩] 200
      = some (jsRound ((50 : Rat) + ((30 : Int) : Rat) * (((200 : Int) : Rat) / ((400 : Int) : Rat)))) := by
    norm_num [interpVolumeTarget, findPoints]
  rw [h]
  congr 1
  apply jsRound_eq <;> norm_num

/-- C6 counterexample: the playback-page replayer's `applyVolumeSmooth`
applies a target 4 away directly (its direct-application threshold is 5,
not 2), instead of stepping by 2 as the claim states. -/
theorem volume_smoothing_claim_false :
    playbackApplyVolumeSmoothStep 50 54 = 54 ∧ (54 : Int) ≠ 50 + 2 := by
  decide

/-- C6 (amended): create.html's replayer smoothing behaves exactly as the
claim states — direct application when the gap is ≤ 2, otherwise a step of
2 (5 when the gap exceeds 20) toward the target, never overshooting; the
playback-page (playback.js) replayer instead applies directly when the gap
is ≤ 5 and otherwise steps by min(3, gap) = 3 toward the target, also never
overshooting. -/
theorem volume_smoothing_amended (current target : Int) :
    (((target - current).natAbs ≤ 2 → applyVolumeSmoothStep current target = target) ∧
     (2 < (target - current).natAbs → (target - current).natAbs ≤ 20 →
        applyVolumeSmoothStep current target = current + (if current < target then 2 else -2)) ∧
     (20 < (target - current).natAbs →
        applyVolumeSmoothStep current target = current + (if current < target then 5 else -5)) ∧
     min current target ≤ applyVolumeSmoothStep current target ∧
     applyVolumeSmoothStep current target ≤ max current target) ∧
    (((target - current).natAbs ≤ 5 → playbackApplyVolumeSmoothStep current target = target) ∧
     (5 < (target - current).natAbs →
        playbackApplyVolumeSmoothStep current target = current + (if current < target then 3 else -3)) ∧
     min current target ≤ playbackApplyVolumeSmoothStep current target ∧
     playbackApplyVolumeSmoothStep current target ≤ max current target) := by
  simp only [applyVolumeSmoothStep, playbackApplyVolumeSmoothStep]
  split_ifs <;> refine ⟨⟨?_, ?_, ?_, ?_, ?_⟩, ?_, ?_, ?_, ?_⟩ <;> intros <;> omega

theorem volume_smoothing_amended_witness :
    applyVolumeSmoothStep 0 10 = 0 + (if (0 : Int) < 10 then 2 else -2) ∧
    playbackApplyVolumeSmoothStep 0 10 = 0 + (if (0 : Int) < 10 then 3 else -3) :=
  ⟨(volume_smoothing_amended 0 10).1.2.1 (by decide) (by decide),
   (volume_smoothing_amended 0 10).2.2.1 (by decide)⟩

/-! ## Hijacking system (create.html lines 2613-2688)

The module-level mutable state touched by the hijack/record/playback
functions is collected in `EngineState`.  `hijackedControls` is a JS `Set`
of `` `${slot}-${controlType}` `` strings iterated in insertion order; it is
modelled as a duplicate-free list of `ControlKey`s in insertion order
(`hijackControl` splits the string back into its two components with
`split('-')`/`parseInt`, an exact inverse for these keys).  DOM writes
(`updateControlVisualState`, slider classes, timestamp button colours) are
presentation-only and not modelled. -/

structure EngineState where
  videos : List (Option Video)
  recordingSessions : List Session
  currentRecordingData : Session
  isRecording : Bool
  isPlaybackMode : Bool
  hijackedControls : List ControlKey
  lastRecordingTime : List (ControlKey × Int)
  recordingStartTime : Int
  currentSession : Nat
deriving DecidableEq

/-- The ternary `sourceControlType === 'volume' ? 'opacity' : 'volume'`
used by `collectLinkedControlsToHijack` (only reached for volume/opacity). -/
def pairedControl : CtrlType → CtrlType
  | .volume => .opacity
  | _ => .volume

/-- `Set.add`: append a key unless already present (JS sets keep insertion
order and ignore re-insertions). -/
def addKey (k : ControlKey) (acc : List ControlKey) : List ControlKey :=
  if k ∈ acc then acc else acc ++ [k]

/-- The `videos.forEach((video, slot) => ...)` loop of
`collectLinkedControlsToHijack` (create.html:2661): for every other slot
holding a cross-module-linked, unlocked video, add the touched control
type, and — when the SOURCE video has volume-opacity linking and a
volume/opacity control is moving — also that slot's paired control
("regardless of their vol-opc link status", per the source comment).
`slot` is the index of the head of the remaining list. -/
def crossModuleAdd (sourceVideo : Video) (sourceSlot : Nat) (ct : CtrlType) :
    Nat → List (Option Video) → List ControlKey → List ControlKey
  | _, [], acc => acc
  | slot, none :: rest, acc => crossModuleAdd sourceVideo sourceSlot ct (slot + 1) rest acc
  | slot, some video :: rest, acc =>
    crossModuleAdd sourceVideo sourceSlot ct (slot + 1) rest
      (if slot ≠ sourceSlot ∧ video.linked = true ∧ video.locked = false then
        (if sourceVideo.volumeOpacityLinked = true ∧ (ct = .volume ∨ ct = .opacity) then
          addKey (slot, pairedControl ct) (addKey (slot, ct) acc)
        else addKey (slot, ct) acc)
      else acc)

/-- `collectLinkedControlsToHijack(sourceSlot, sourceControlType,
controlsToHijack)` (create.html:2649). -/
def collectLinkedControlsToHijack (videos : List (Option Video)) (sourceSlot : Nat)
    (ct : CtrlType) (acc : List ControlKey) : List ControlKey :=
  match videoAt videos sourceSlot with
  | none => acc
  | some sourceVideo =>
    let acc₁ :=
      if sourceVideo.volumeOpacityLinked = true ∧ (ct = .volume ∨ ct = .opacity) then
        addKey (sourceSlot, pairedControl ct) acc
      else acc
    if sourceVideo.linked = true ∧ ct ≠ .timestamps then
      crossModuleAdd sourceVideo sourceSlot ct 0 videos acc₁
    else acc₁

/-- The body of the `for (const key of controlsToHijack)` loop of
`hijackControl` (create.html:2627): add the key to the hijack set and
truncate all finalized sessions' future data for it. -/
def hijackStep (currentTime : Int) (s : EngineState) (k : ControlKey) : EngineState :=
  if k ∉ s.hijackedControls then
    { s with
      hijackedControls := s.hijackedControls ++ [k],
      recordingSessions := deleteFutureRecordingData k.1 k.2 currentTime s.recordingSessions }
  else s

/-- `hijackControl(slot, controlType)` (create.html:2614), with `Date.now()`
passed in as `now`: in playback (overdub) mode, when the touched key is not
yet hijacked, collect the linked keys and hijack each not-yet-hijacked one,
truncating its future data from `currentTime = now - recordingStartTime`. -/
def hijackControl (slot : Nat) (ct : CtrlType) (now : Int) (st : EngineState) : EngineState :=
  if st.isPlaybackMode = true ∧ (slot, ct) ∉ st.hijackedControls then
    let currentTime := now - st.recordingStartTime
    let controlsToHijack := collectLinkedControlsToHijack st.videos slot ct [(slot, ct)]
    controlsToHijack.foldl (hijackStep currentTime) st
  else st

section HijackLemmas

theorem mem_addKey {k j : ControlKey} {acc : List ControlKey} :
    k ∈ addKey j acc ↔ k = j ∨ k ∈ acc := by
  unfold addKey
  split
  · constructor
    · exact Or.inr
    · rintro (rfl | h) <;> assumption
  · simp [List.mem_append, or_comm]

theorem subset_addKey (j : ControlKey) (acc : List ControlKey) : acc ⊆ addKey j acc := by
  intro x hx; exact mem_addKey.2 (Or.inr hx)

theorem subset_crossModuleAdd (sv : Video) (s : Nat) (ct : CtrlType) :
    ∀ (l : List (Option Video)) (slot₀ : Nat) (acc : List ControlKey),
      acc ⊆ crossModuleAdd sv s ct slot₀ l acc := by
  intro l
  induction l with
  | nil => intro slot₀ acc; simp [crossModuleAdd]
  | cons v rest ih =>
      intro slot₀ acc
      cases v with
      | none => exact ih (slot₀ + 1) acc
      | some w =>
          refine List.Subset.trans ?_ (ih (slot₀ + 1) _)
          split
          · split
            · exact List.Subset.trans (subset_addKey _ _) (subset_addKey _ _)
            · exact subset_addKey _ _
          · exact List.Subset.refl _

theorem subset_collectLinkedControlsToHijack (videos : List (Option Video)) (s : Nat)
    (ct : CtrlType) (acc : List ControlKey) :
    acc ⊆ collectLinkedControlsToHijack videos s ct acc := by
  unfold collectLinkedControlsToHijack
  cases videoAt videos s with
  | none => exact List.Subset.refl _
  | some sv =>
      simp only
      split
      · refine List.Subset.trans ?_ (subset_crossModuleAdd sv s ct videos 0 _)
        split
        · exact subset_addKey _ _
        · exact List.Subset.refl _
      · split
        · exact subset_addKey _ _
        · exact List.Subset.refl _

theorem hijackStep_isPlaybackMode (t : Int) (s : EngineState) (k : ControlKey) :
    (hijackStep t s k).isPlaybackMode = s.isPlaybackMode := by
  unfold hijackStep; split <;> rfl

theorem hijackStep_videos (t : Int) (s : EngineState) (k : ControlKey) :
    (hijackStep t s k).videos = s.videos := by
  unfold hijackStep; split <;> rfl

theorem hijackStep_sessions_length (t : Int) (s : EngineState) (k : ControlKey) :
    (hijackStep t s k).recordingSessions.length = s.recordingSessions.length := by
  unfold hijackStep
  split <;> simp [deleteFutureRecordingData]

theorem hijackStep_hijacked_mono (t : Int) (s : EngineState) (k : ControlKey) :
    s.hijackedControls ⊆ (hijackStep t s k).hijackedControls := by
  unfold hijackStep
  split
  · exact fun x hx => List.mem_append_left _ hx
  · exact List.Subset.refl _

theorem mem_hijackStep (t : Int) (s : EngineState) (k : ControlKey) :
    k ∈ (hijackStep t s k).hijackedControls := by
  unfold hijackStep
  split
  · simp
  · simp_all

theorem mem_hijackStep_elim (t : Int) (s : EngineState) (k j : ControlKey)
    (h : j ∈ (hijackStep t s k).hijackedControls) :
    j ∈ s.hijackedControls ∨ j = k := by
  unfold hijackStep at h
  split at h
  · rcases List.mem_append.1 h with h' | h'
    · exact Or.inl h'
    · simp at h'; exact Or.inr h'
  · exact Or.inl h

theorem foldl_hijackStep_isPlaybackMode (t : Int) (keys : List ControlKey) :
    ∀ s : EngineState, (keys.foldl (hijackStep t) s).isPlaybackMode = s.isPlaybackMode := by
  induction keys with
  | nil => intro s; rfl
  | cons k rest ih => intro s; rw [List.foldl_cons, ih, hijackStep_isPlaybackMode]

theorem foldl_hijackStep_videos (t : Int) (keys : List ControlKey) :
    ∀ s : EngineState, (keys.foldl (hijackStep t) s).videos = s.videos := by
  induction keys with
  | nil => intro s; rfl
  | cons k rest ih => intro s; rw [List.foldl_cons, ih, hijackStep_videos]

theorem foldl_hijackStep_sessions_length (t : Int) (keys : List ControlKey) :
    ∀ s : EngineState,
      (keys.foldl (hijackStep t) s).recordingSessions.length = s.recordingSessions.length := by
  induction keys with
  | nil => intro s; rfl
  | cons k rest ih => intro s; rw [List.foldl_cons, ih, hijackStep_sessions_length]

theorem foldl_hijackStep_hijacked_mono (t : Int) (keys : List ControlKey) :
    ∀ s : EngineState, s.hijackedControls ⊆ (keys.foldl (hijackStep t) s).hijackedControls := by
  induction keys with
  | nil => intro s; exact List.Subset.refl _
  | cons k rest ih =>
      intro s
      exact List.Subset.trans (hijackStep_hijacked_mono t s k) (ih (hijackStep t s k))

theorem mem_foldl_hijackStep_of_mem (t : Int) (keys : List ControlKey) :
    ∀ (s : EngineState) (k : ControlKey), k ∈ keys →
      k ∈ (keys.foldl (hijackStep t) s).hijackedControls := by
  induction keys with
  | nil => intro s k h; simp at h
  | cons j rest ih =>
      intro s k h
      rcases List.mem_cons.1 h with rfl | h'
      · exact foldl_hijackStep_hijacked_mono t rest _ (mem_hijackStep t s k)
      · exact ih _ k h'

theorem mem_foldl_hijackStep_elim (t : Int) (keys : List ControlKey) :
    ∀ (s : EngineState) (j : ControlKey),
      j ∈ (keys.foldl (hijackStep t) s).hijackedControls →
      j ∈ s.hijackedControls ∨ j ∈ keys := by
  induction keys with
  | nil => intro s j h; exact Or.inl h
  | cons k rest ih =>
      intro s j h
      rcases ih _ j h with h' | h'
      · rcases mem_hijackStep_elim t s k j h' with h'' | rfl
        · exact Or.inl h''
        · exact Or.inr (List.mem_cons_self _ _)
      · exact Or.inr (List.mem_cons_of_mem _ h')

/-- C4: Hijack idempotence: calling `hijackControl` a second time for the
same `(slot, controlType)` — at any later wall-clock instant, within the
same overdub session — leaves the entire engine state (hijack set and all
sessions' control logs included) exactly as after the first call: the
second call performs no truncation and adds no controls. -/
theorem hijack_idempotent (slot : Nat) (ct : CtrlType) (now₁ now₂ : Int) (st : EngineState) :
    hijackControl slot ct now₂ (hijackControl slot ct now₁ st) = hijackControl slot ct now₁ st := by
  by_cases h : st.isPlaybackMode = true ∧ (slot, ct) ∉ st.hijackedControls
  · have hmem : (slot, ct) ∈ (hijackControl slot ct now₁ st).hijackedControls := by
      unfold hijackControl
      rw [if_pos h]
      exact mem_foldl_hijackStep_of_mem _ _ st (slot, ct)
        (subset_collectLinkedControlsToHijack st.videos slot ct [(slot, ct)] (by simp))
    unfold hijackControl
    rw [if_neg (fun hc => hc.2 hmem)]
  · unfold hijackControl
    rw [if_neg h, if_neg h]

theorem videoAt_eq_some {videos : List (Option Video)} {o : Nat} {w : Video}
    (h : videoAt videos o = some w) : videos[o]? = some (some w) := by
  unfold videoAt at h
  rw [List.getD_eq_getElem?_getD] at h
  cases hx : videos[o]? with
  | none => rw [hx] at h; simp at h
  | some v =>
      rw [hx] at h
      cases v with
      | none => simp at h
      | some w' => simp_all

theorem mem_crossModuleAdd_of (sv : Video) (s : Nat) (ct : CtrlType) :
    ∀ (l : List (Option Video)) (slot₀ i : Nat) (w : Video), l[i]? = some (some w) →
      slot₀ + i ≠ s → w.linked = true → w.locked = false →
      ∀ acc, (slot₀ + i, ct) ∈ crossModuleAdd sv s ct slot₀ l acc ∧
        (sv.volumeOpacityLinked = true ∧ (ct = .volume ∨ ct = .opacity) →
          (slot₀ + i, pairedControl ct) ∈ crossModuleAdd sv s ct slot₀ l acc) := by
  intro l
  induction l with
  | nil => intro slot₀ i w h; simp at h
  | cons v rest ih =>
      intro slot₀ i w h hs hw hl acc
      cases i with
      | zero =>
          simp only [List.getElem?_cons_zero, Option.some_inj] at h
          subst h
          simp only [Nat.add_zero] at hs ⊢
          simp only [crossModuleAdd, hs, hw, hl, ne_eq, not_false_iff, true_and, if_true]
          constructor
          · refine subset_crossModuleAdd sv s ct rest (slot₀ + 1) _ ?_
            split
            · exact mem_addKey.2 (Or.inr (mem_addKey.2 (Or.inl rfl)))
            · exact mem_addKey.2 (Or.inl rfl)
          · intro hvo
            refine subset_crossModuleAdd sv s ct rest (slot₀ + 1) _ ?_
            rw [if_pos hvo]
            exact mem_addKey.2 (Or.inl rfl)
      | succ i' =>
          simp only [List.getElem?_cons_succ] at h
          have hs' : (slot₀ + 1) + i' ≠ s := by omega
          have heq : slot₀ + (i' + 1) = (slot₀ + 1) + i' := by omega
          rw [heq]
          cases v with
          | none => exact ih (slot₀ + 1) i' w h hs' hw hl acc
          | some v' =>
              simpa only [crossModuleAdd] using ih (slot₀ + 1) i' w h hs' hw hl _

theorem mem_crossModuleAdd_elim (sv : Video) (s : Nat) (ct : CtrlType)
    (hnv : ¬(sv.volumeOpacityLinked = true ∧ (ct = .volume ∨ ct = .opacity))) :
    ∀ (l : List (Option Video)) (slot₀ : Nat) (acc : List ControlKey) (k : ControlKey),
      k ∈ crossModuleAdd sv s ct slot₀ l acc → k ∈ acc ∨ k.2 = ct := by
  intro l
  induction l with
  | nil => intro slot₀ acc k h; exact Or.inl h
  | cons v rest ih =>
      intro slot₀ acc k h
      cases v with
      | none => exact ih (slot₀ + 1) acc k h
      | some w =>
          simp only [crossModuleAdd] at h
          rw [if_neg hnv] at h
          rcases ih (slot₀ + 1) _ k h with h' | h'
          · split at h'
            · rcases mem_addKey.1 h' with rfl | h''
              · exact Or.inr rfl
              · exact Or.inl h''
            · exact Or.inl h'
          · exact Or.inr h'

theorem mem_collect_cross {videos : List (Option Video)} {s : Nat} {ct : CtrlType} {sv : Video}
    (hv : videoAt videos s = some sv) (hl : sv.linked = true) (hct : ct ≠ .timestamps)
    {o : Nat} {w : Video} (ho : videoAt videos o = some w) (hos : o ≠ s)
    (hwl : w.linked = true) (hwu : w.locked = false) (acc : List ControlKey) :
    (o, ct) ∈ collectLinkedControlsToHijack videos s ct acc ∧
      (sv.volumeOpacityLinked = true ∧ (ct = .volume ∨ ct = .opacity) →
        (o, pairedControl ct) ∈ collectLinkedControlsToHijack videos s ct acc) := by
  unfold collectLinkedControlsToHijack
  rw [hv]
  simp only [hl, hct, ne_eq, not_false_iff, and_true, true_and, if_true]
  have h := mem_crossModuleAdd_of sv s ct videos 0 o w (videoAt_eq_some ho)
    (by simpa using hos) hwl hwu
    (if sv.volumeOpacityLinked = true ∧ (ct = .volume ∨ ct = .opacity) then
      addKey (s, pairedControl ct) acc
    else acc)
  constructor
  · simpa using h.1
  · intro hvo
    simpa using h.2 hvo

theorem mem_collect_elim {videos : List (Option Video)} {s : Nat} {ct : CtrlType}
    {sv : Video} (hv : videoAt videos s = some sv)
    (hnv : sv.volumeOpacityLinked = false) (acc : List ControlKey) (k : ControlKey)
    (h : k ∈ collectLinkedControlsToHijack videos s ct acc) : k ∈ acc ∨ k.2 = ct := by
  unfold collectLinkedControlsToHijack at h
  rw [hv] at h
  dsimp only at h
  have hnv' : ¬(sv.volumeOpacityLinked = true ∧ (ct = .volume ∨ ct = .opacity)) := by
    simp [hnv]
  rw [if_neg hnv'] at h
  split at h
  · exact mem_crossModuleAdd_elim sv s ct hnv' videos 0 acc k h
  · exact Or.inl h

end HijackLemmas

/-- C2 (amended): during an overdub session, touching volume or opacity on
a cross-module-linked track hijacks the same control type on every other
loaded track that is cross-module-linked and not locked; the paired control
(opacity for volume, volume for opacity) on each such other track is newly
hijacked exactly when the SOURCE track has intra-module volume-opacity
linking enabled — regardless of the other track's own volume-opacity-link
flag. -/
theorem cross_module_hijack_linkage (st : EngineState) (slot : Nat) (ct : CtrlType)
    (now : Int) (sv : Video) (o : Nat) (w : Video)
    (hpb : st.isPlaybackMode = true) (hnot : (slot, ct) ∉ st.hijackedControls)
    (hsv : videoAt st.videos slot = some sv) (hlink : sv.linked = true)
    (hct : ct = .volume ∨ ct = .opacity)
    (ho : videoAt st.videos o = some w) (hos : o ≠ slot)
    (hwl : w.linked = true) (hwu : w.locked = false) :
    (o, ct) ∈ (hijackControl slot ct now st).hijackedControls ∧
    (sv.volumeOpacityLinked = true →
      (o, pairedControl ct) ∈ (hijackControl slot ct now st).hijackedControls) ∧
    (sv.volumeOpacityLinked = false →
      ((o, pairedControl ct) ∈ (hijackControl slot ct now st).hijackedControls ↔
        (o, pairedControl ct) ∈ st.hijackedControls)) := by
  have hctts : ct ≠ .timestamps := by rcases hct with rfl | rfl <;> simp
  have hcoll := mem_collect_cross hsv hlink hctts ho hos hwl hwu
    ([(slot, ct)] : List ControlKey)
  unfold hijackControl
  rw [if_pos ⟨hpb, hnot⟩]
  refine ⟨mem_foldl_hijackStep_of_mem _ _ st _ hcoll.1, ?_, ?_⟩
  · intro hvo
    exact mem_foldl_hijackStep_of_mem _ _ st _ (hcoll.2 ⟨hvo, hct⟩)
  · intro hnv
    constructor
    · intro hmem
      rcases mem_foldl_hijackStep_elim _ _ st _ hmem with h' | h'
      · exact h'
      · rcases mem_collect_elim hsv hnv _ _ h' with h'' | h''
        · simp only [List.mem_singleton, Prod.mk.injEq] at h''
          exact absurd h''.1 hos
        · exfalso
          rcases hct with rfl | rfl <;> simp [pairedControl] at h''
    · intro hmem
      exact foldl_hijackStep_hijacked_mono _ _ st hmem

/-- Tracks used in the C2 counterexample and witness: slot 0 is
cross-module-linked without intra-module volume-opacity linking, slot 1 is
cross-module-linked, unlocked, WITH intra-module volume-opacity linking. -/
def c2VideoA : Video :=
  { url := "a", videoId := "a", title := "", keyframes := [some 1, none, none],
    locked := false, linked := true, volumeOpacityLinked := false, volume := 50, opacity := 50 }

def c2VideoB : Video :=
  { url := "b", videoId := "b", title := "", keyframes := [some 2, none, none],
    locked := false, linked := true, volumeOpacityLinked := true, volume := 50, opacity := 50 }

/-- Overdub-session state for the C2 counterexample/witness. -/
def c2State : EngineState :=
  { videos := [some c2VideoA, some c2VideoB],
    recordingSessions := [], currentRecordingData := ⟨2, 0, 60000, []⟩,
    isRecording := true, isPlaybackMode := true, hijackedControls := [],
    lastRecordingTime := [], recordingStartTime := 0, currentSession := 2 }

/-- C2 counterexample: the live user touches volume on slot 0 (no
intra-module link on the source track); the other track, slot 1, HAS
intra-module volume-opacity linking, yet its opacity is NOT hijacked —
the code keys the paired-control propagation on the source track's flag,
not the other track's, contradicting the claim. -/
theorem cross_module_hijack_claim_false :
    (1, CtrlType.volume) ∈ (hijackControl 0 CtrlType.volume 0 c2State).hijackedControls ∧
    (1, CtrlType.opacity) ∉ (hijackControl 0 CtrlType.volume 0 c2State).hijackedControls := by
  decide

theorem cross_module_hijack_linkage_witness :
    (1, CtrlType.volume) ∈ (hijackControl 0 CtrlType.volume 5 c2State).hijackedControls ∧
    ((1, CtrlType.opacity) ∈ (hijackControl 0 CtrlType.volume 5 c2State).hijackedControls ↔
      (1, CtrlType.opacity) ∈ c2State.hijackedControls) := by
  have h := cross_module_hijack_linkage c2State 0 CtrlType.volume 5 c2VideoA 1 c2VideoB
    rfl (by decide) rfl rfl (Or.inl rfl) rfl (by decide) rfl rfl
  exact ⟨h.1, h.2.2 rfl⟩

/-! ## Linked-control value propagation (create.html lines 1210-1251)

`updateLinkedControls` mutates the value (and slider position) of every
other linked, unlocked track; the slider-DOM writes and the
`hijackControl` calls it makes in playback mode are modelled separately
(`hijackControl` above).  Here the value propagation itself is embedded as
a function on the `videos` array. -/

/-- The `Math.max(0, Math.min(100, currentValue + change))` clamp. -/
def clamp100 (x : Int) : Int := max 0 (min 100 x)

/-- The per-track value update of `updateLinkedControls`'s `forEach` body:
add the change to the same control, clamped to [0,100] (`type === 'volume'`
and `type === 'opacity'` branches; other types change nothing). -/
def applyLinkedChange (ty : CtrlType) (change : Int) (w : Video) : Video :=
  match ty with
  | .volume => { w with volume := clamp100 (w.volume + change) }
  | .opacity => { w with opacity := clamp100 (w.opacity + change) }
  | .timestamps => w

/-- The `videos.forEach((video, slot) => ...)` loop of
`updateLinkedControls`: every slot other than the source that holds a
linked, unlocked video receives the change.  `slot` is the index of the
head of the remaining list. -/
def updateLinkedSlots (sourceSlot : Nat) (ty : CtrlType) (change : Int) :
    Nat → List (Option Video) → List (Option Video)
  | _, [] => []
  | slot, none :: rest => none :: updateLinkedSlots sourceSlot ty change (slot + 1) rest
  | slot, some w :: rest =>
    (if slot ≠ sourceSlot ∧ w.linked = true ∧ w.locked = false then
      some (applyLinkedChange ty change w)
    else some w) :: updateLinkedSlots sourceSlot ty change (slot + 1) rest

/-- `updateLinkedControls(sourceSlot, type, oldValue, newValue)`
(create.html:1210): no-op unless the source slot holds a cross-module
linked video; otherwise applies `change = newValue - oldValue` to every
other linked, unlocked track's same control, clamped to [0,100]. -/
def updateLinkedControls (videos : List (Option Video)) (sourceSlot : Nat) (ty : CtrlType)
    (oldValue newValue : Int) : List (Option Video) :=
  match videoAt videos sourceSlot with
  | none => videos
  | some sourceVideo =>
    if sourceVideo.linked = true then
      updateLinkedSlots sourceSlot ty (newValue - oldValue) 0 videos
    else videos

/-- The control value `updateLinkedControls` reads and writes for a given
control type (`video.volume` / `video.opacity`). -/
def ctrlVal (ty : CtrlType) (w : Video) : Int :=
  match ty with
  | .volume => w.volume
  | .opacity => w.opacity
  | .timestamps => 0

section LinkingLemmas

theorem clamp100_bounds (x : Int) : 0 ≤ clamp100 x ∧ clamp100 x ≤ 100 := by
  unfold clamp100; omega

theorem clamp100_of_bounds {x : Int} (h1 : 0 ≤ x) (h2 : x ≤ 100) : clamp100 x = x := by
  unfold clamp100; omega

theorem getElem?_updateLinkedSlots (sourceSlot : Nat) (ty : CtrlType) (change : Int) :
    ∀ (l : List (Option Video)) (slot₀ n : Nat),
      (updateLinkedSlots sourceSlot ty change slot₀ l)[n]? = (l[n]?).map fun v =>
        match v with
        | none => none
        | some w =>
          if slot₀ + n ≠ sourceSlot ∧ w.linked = true ∧ w.locked = false then
            some (applyLinkedChange ty change w)
          else some w := by
  intro l
  induction l with
  | nil => intro slot₀ n; simp [updateLinkedSlots]
  | cons v rest ih =>
      intro slot₀ n
      cases v with
      | none =>
          cases n with
          | zero => simp [updateLinkedSlots]
          | succ n' =>
              simp only [updateLinkedSlots, List.getElem?_cons_succ]
              have heq : slot₀ + (n' + 1) = (slot₀ + 1) + n' := by omega
              rw [heq]
              exact ih (slot₀ + 1) n'
      | some w =>
          cases n with
          | zero => simp [updateLinkedSlots]
          | succ n' =>
              simp only [updateLinkedSlots, List.getElem?_cons_succ]
              have heq : slot₀ + (n' + 1) = (slot₀ + 1) + n' := by omega
              rw [heq]
              exact ih (slot₀ + 1) n'

theorem videoAt_updateLinkedSlots (sourceSlot : Nat) (ty : CtrlType) (change : Int)
    (l : List (Option Video)) (n : Nat) (w : Video) (h : videoAt l n = some w) :
    videoAt (updateLinkedSlots sourceSlot ty change 0 l) n =
      (if n ≠ sourceSlot ∧ w.linked = true ∧ w.locked = false then
        some (applyLinkedChange ty change w)
      else some w) := by
  have h' := videoAt_eq_some h
  unfold videoAt
  rw [List.getD_eq_getElem?_getD, getElem?_updateLinkedSlots, h']
  simp

theorem applyLinkedChange_preserves_flags (ty : CtrlType) (change : Int) (w : Video) :
    (applyLinkedChange ty change w).linked = w.linked ∧
    (applyLinkedChange ty change w).locked = w.locked := by
  cases ty <;> simp [applyLinkedChange]

theorem updateLinkedControls_videoAt (videos : List (Option Video)) (sourceSlot : Nat)
    (ty : CtrlType) (oldValue newValue : Int) (sv : Video)
    (hsv : videoAt videos sourceSlot = some sv) (hlink : sv.linked = true)
    (slot : Nat) (w : Video) (hw : videoAt videos slot = some w) :
    videoAt (updateLinkedControls videos sourceSlot ty oldValue newValue) slot =
      (if slot ≠ sourceSlot ∧ w.linked = true ∧ w.locked = false then
        some (applyLinkedChange ty (newValue - oldValue) w)
      else some w) := by
  unfold updateLinkedControls
  rw [hsv]
  simp only [hlink, if_true]
  exact videoAt_updateLinkedSlots _ _ _ _ _ _ hw

end LinkingLemmas

/-- C9: Delta-linkage clamp and reversal: when a live user changes volume
or opacity on a cross-module-linked track, every other linked, unlocked
track's same control receives the delta `newValue - oldValue`, clamped to
[0,100] (hence always within [0,100]); and when the first application did
not clamp (the raw sum already lay in [0,100]) and the track's value was in
range, applying the exact negation afterwards restores the original
value. -/
theorem delta_linkage_clamp (videos : List (Option Video)) (sourceSlot : Nat) (ty : CtrlType)
    (oldValue newValue : Int) (sv : Video) (slot : Nat) (w : Video)
    (hsv : videoAt videos sourceSlot = some sv) (hlink : sv.linked = true)
    (hty : ty = .volume ∨ ty = .opacity)
    (hslot : slot ≠ sourceSlot) (hw : videoAt videos slot = some w)
    (hwl : w.linked = true) (hwu : w.locked = false) :
    ∃ w₁, videoAt (updateLinkedControls videos sourceSlot ty oldValue newValue) slot = some w₁ ∧
      ctrlVal ty w₁ = clamp100 (ctrlVal ty w + (newValue - oldValue)) ∧
      0 ≤ ctrlVal ty w₁ ∧ ctrlVal ty w₁ ≤ 100 ∧
      (0 ≤ ctrlVal ty w + (newValue - oldValue) →
        ctrlVal ty w + (newValue - oldValue) ≤ 100 →
        0 ≤ ctrlVal ty w → ctrlVal ty w ≤ 100 →
        ∃ w₂, videoAt (updateLinkedControls
            (updateLinkedControls videos sourceSlot ty oldValue newValue)
            sourceSlot ty newValue oldValue) slot = some w₂ ∧
          ctrlVal ty w₂ = ctrlVal ty w) := by
  have hcond : slot ≠ sourceSlot ∧ w.linked = true ∧ w.locked = false := ⟨hslot, hwl, hwu⟩
  have hres1 : videoAt (updateLinkedControls videos sourceSlot ty oldValue newValue) slot
      = some (applyLinkedChange ty (newValue - oldValue) w) := by
    rw [updateLinkedControls_videoAt videos sourceSlot ty oldValue newValue sv hsv hlink slot w hw,
      if_pos hcond]
  have hsv1 : videoAt (updateLinkedControls videos sourceSlot ty oldValue newValue) sourceSlot
      = some sv := by
    rw [updateLinkedControls_videoAt videos sourceSlot ty oldValue newValue sv hsv hlink
      sourceSlot sv hsv]
    simp
  have hval : ctrlVal ty (applyLinkedChange ty (newValue - oldValue) w)
      = clamp100 (ctrlVal ty w + (newValue - oldValue)) := by
    rcases hty with rfl | rfl <;> simp [applyLinkedChange, ctrlVal]
  refine ⟨_, hres1, hval, ?_, ?_, ?_⟩
  · rw [hval]; exact (clamp100_bounds _).1
  · rw [hval]; exact (clamp100_bounds _).2
  · intro hge hle hge0 hle0
    have hflags := applyLinkedChange_preserves_flags ty (newValue - oldValue) w
    have hcond1 : slot ≠ sourceSlot ∧
        (applyLinkedChange ty (newValue - oldValue) w).linked = true ∧
        (applyLinkedChange ty (newValue - oldValue) w).locked = false := by
      rw [hflags.1, hflags.2]; exact hcond
    have hres2 : videoAt (updateLinkedControls
        (updateLinkedControls videos sourceSlot ty oldValue newValue)
        sourceSlot ty newValue oldValue) slot
        = some (applyLinkedChange ty (oldValue - newValue)
            (applyLinkedChange ty (newValue - oldValue) w)) := by
      rw [updateLinkedControls_videoAt _ sourceSlot ty newValue oldValue sv hsv1 hlink
        slot _ hres1, if_pos hcond1]
    refine ⟨_, hres2, ?_⟩
    have hval2 : ctrlVal ty (applyLinkedChange ty (oldValue - newValue)
        (applyLinkedChange ty (newValue - oldValue) w))
        = clamp100 (clamp100 (ctrlVal ty w + (newValue - oldValue)) + (oldValue - newValue)) := by
      rcases hty with rfl | rfl <;> simp [applyLinkedChange, ctrlVal]
    rw [hval2, clamp100_of_bounds hge hle]
    have : ctrlVal ty w + (newValue - oldValue) + (oldValue - newValue) = ctrlVal ty w := by ring
    rw [this, clamp100_of_bounds hge0 hle0]

theorem delta_linkage_clamp_witness :
    ∃ w₁, videoAt (updateLinkedControls [some c2VideoA, some c2VideoB] 0 CtrlType.volume 50 70) 1
        = some w₁ ∧
      ctrlVal CtrlType.volume w₁ = clamp100 (ctrlVal CtrlType.volume c2VideoB + (70 - 50)) ∧
      0 ≤ ctrlVal CtrlType.volume w₁ ∧ ctrlVal CtrlType.volume w₁ ≤ 100 ∧
      (∃ w₂, videoAt (updateLinkedControls
          (updateLinkedControls [some c2VideoA, some c2VideoB] 0 CtrlType.volume 50 70)
          0 CtrlType.volume 70 50) 1 = some w₂ ∧
        ctrlVal CtrlType.volume w₂ = ctrlVal CtrlType.volume c2VideoB) := by
  obtain ⟨w₁, h1, h2, h3, h4, h5⟩ := delta_linkage_clamp [some c2VideoA, some c2VideoB]
    0 CtrlType.volume 50 70 c2VideoA 1 c2VideoB rfl rfl (Or.inl rfl) (by decide) rfl rfl rfl
  exact ⟨w₁, h1, h2, h3, h4, h5 (by decide) (by decide) (by decide) (by decide)⟩

/-! ## Recorder (create.html lines 2734-2773)

`recordControlChange` / `recordControlChangeThrottled` append samples to
`currentRecordingData.controlData` during an active recording.  Both take
the wall clock (`Date.now()`) as an explicit `now` argument; the source
reads `Date.now()` once in the throttled wrapper and once in
`recordControlChange` — the same millisecond instant for the purposes of
this model.  The only call sites of `recordControlChange` for
volume/opacity go through the throttled wrapper (create.html:1063, 1144);
keyframe events are recorded unthrottled by the separate
`recordTimestampChange`, so `pushSample` leaves the `timestamps` list to
that function. -/

/-- Lookup `lastRecordingTime[key]` in the throttle map. -/
def lookupKeyTime : List (ControlKey × Int) → ControlKey → Option Int
  | [], _ => none
  | p :: rest, k => if p.1 = k then some p.2 else lookupKeyTime rest k

/-- Store `lastRecordingTime[key] = t`. -/
def setKeyTime : List (ControlKey × Int) → ControlKey → Int → List (ControlKey × Int)
  | [], k, t => [(k, t)]
  | p :: rest, k, t => if p.1 = k then (k, t) :: rest else p :: setKeyTime rest k t

/-- The `controlData[slot][controlType].push({timestamp, value})` of
`recordControlChange`; volume/opacity only (see section comment). -/
def pushSample (ct : CtrlType) (sample : Sample) (sd : SlotData) : SlotData :=
  match ct with
  | .volume => { sd with volume := sd.volume ++ [sample] }
  | .opacity => { sd with opacity := sd.opacity ++ [sample] }
  | .timestamps => sd

/-- `recordControlChange(slot, controlType, value)` (create.html:2734):
no-op unless recording; otherwise initialises `controlData[slot]` when
missing and appends `{timestamp: now - recordingStartTime, value}`. -/
def recordControlChange (slot : Nat) (ct : CtrlType) (value : Int) (now : Int)
    (st : EngineState) : EngineState :=
  if st.isRecording = true then
    let timestamp := now - st.recordingStartTime
    let cd := st.currentRecordingData.controlData
    let cd₁ := if (getSlotData cd slot).isNone then cd ++ [(slot, ⟨[], [], []⟩)] else cd
    let cd₂ := cd₁.map fun p =>
      if p.1 = slot then (p.1, pushSample ct ⟨timestamp, value⟩ p.2) else p
    { st with currentRecordingData := { st.currentRecordingData with controlData := cd₂ } }
  else st

/-- `recordControlChangeThrottled(slot, controlType, value)`
(create.html:2757): no-op unless recording; accepts the sample only when at
least 25 ms have passed since the last accepted sample for this key
(`lastRecordingTime[key]`, 0 when absent — the source writes the 0 into the
map first, which is observationally the same), recording it and stamping
the key with `now`. -/
def recordControlChangeThrottled (slot : Nat) (ct : CtrlType) (value : Int) (now : Int)
    (st : EngineState) : EngineState :=
  if st.isRecording = true then
    let throttleKey : ControlKey := (slot, ct)
    let last := (lookupKeyTime st.lastRecordingTime throttleKey).getD 0
    if now - last ≥ 25 then
      let st₁ := recordControlChange slot ct value now st
      { st₁ with lastRecordingTime := setKeyTime st₁.lastRecordingTime throttleKey now }
    else st
  else st

/-- The volume/opacity sample lists of one control log. -/
def ctrlSamples (sd : SlotData) (ct : CtrlType) : List Sample :=
  match ct with
  | .volume => sd.volume
  | .opacity => sd.opacity
  | .timestamps => []

/-- The samples recorded so far in the in-progress session for one
`(slot, controlType)` key (empty when the slot has no entry yet). -/
def recordedSamples (st : EngineState) (slot : Nat) (ct : CtrlType) : List Sample :=
  ctrlSamples ((getSlotData st.currentRecordingData.controlData slot).getD ⟨[], [], []⟩) ct

/-- One call to the throttled recorder, for processing call sequences. -/
structure RecCall where
  slot : Nat
  ct : CtrlType
  value : Int
  now : Int
deriving DecidableEq

/-- Fold a sequence of live control events through the throttled
recorder. -/
def processCalls (calls : List RecCall) (st : EngineState) : EngineState :=
  calls.foldl (fun s c => recordControlChangeThrottled c.slot c.ct c.value c.now s) st

section RecorderLemmas

theorem getSlotData_append (cd : List (Nat × SlotData)) (s : Nat) (e : SlotData) (n : Nat) :
    getSlotData (cd ++ [(s, e)]) n =
      match getSlotData cd n with
      | some x => some x
      | none => if s = n then some e else none := by
  induction cd with
  | nil => simp [getSlotData]
  | cons p rest ih =>
      by_cases h : p.1 = n <;> simp [getSlotData, h, ih]

theorem ctrlSamples_pushSample (ct ct' : CtrlType) (x : Sample) (sd : SlotData) :
    ctrlSamples (pushSample ct x sd) ct' =
      if ct' = ct ∧ (ct = .volume ∨ ct = .opacity) then ctrlSamples sd ct' ++ [x]
      else ctrlSamples sd ct' := by
  cases ct <;> cases ct' <;> simp [pushSample, ctrlSamples]

theorem recordedSamples_recordControlChange (slot : Nat) (ct : CtrlType) (value now : Int)
    (st : EngineState) (hrec : st.isRecording = true) (slot' : Nat) (ct' : CtrlType) :
    recordedSamples (recordControlChange slot ct value now st) slot' ct' =
      if slot' = slot ∧ ct' = ct ∧ (ct = .volume ∨ ct = .opacity) then
        recordedSamples st slot' ct' ++ [⟨now - st.recordingStartTime, value⟩]
      else recordedSamples st slot' ct' := by
  unfold recordControlChange recordedSamples
  rw [if_pos hrec]
  dsimp only
  rw [getSlotData_map_update]
  by_cases hs : slot' = slot
  · subst hs
    have hkey : (getSlotData (if (getSlotData st.currentRecordingData.controlData slot').isNone
        then st.currentRecordingData.controlData ++ [(slot', ⟨[], [], []⟩)]
        else st.currentRecordingData.controlData) slot').getD ⟨[], [], []⟩
        = (getSlotData st.currentRecordingData.controlData slot').getD ⟨[], [], []⟩ := by
      split
      · rename_i hnone
        rw [getSlotData_append]
        rw [Option.isNone_iff_eq_none] at hnone
        rw [hnone]
        simp
      · rfl
    cases hopt : getSlotData (if (getSlotData st.currentRecordingData.controlData slot').isNone
        then st.currentRecordingData.controlData ++ [(slot', ⟨[], [], []⟩)]
        else st.currentRecordingData.controlData) slot' with
    | none =>
        exfalso
        split at hopt
        · rw [getSlotData_append] at hopt
          split at hopt
          · simp at hopt
          · simp_all
        · rename_i hnn
          rw [Option.isNone_iff_eq_none] at hnn
          simp_all
    | some sd =>
        rw [hopt] at hkey
        simp only [Option.getD_some] at hkey
        simp only [hopt, Option.map_some', Option.getD_some, eq_self_iff_true, if_true, true_and]
        rw [ctrlSamples_pushSample, ← hkey]
  · simp only [hs, if_false]
    have : getSlotData (if (getSlotData st.currentRecordingData.controlData slot).isNone
        then st.currentRecordingData.controlData ++ [(slot, ⟨[], [], []⟩)]
        else st.currentRecordingData.controlData) slot'
        = getSlotData st.currentRecordingData.controlData slot' := by
      split
      · rw [getSlotData_append]
        cases hg : getSlotData st.currentRecordingData.controlData slot' with
        | some x => rfl
        | none => simp [Ne.symm hs]
      · rfl
    rw [this]
    simp [hs]

theorem recordControlChange_frame (slot : Nat) (ct : CtrlType) (value now : Int)
    (st : EngineState) :
    (recordControlChange slot ct value now st).lastRecordingTime = st.lastRecordingTime ∧
    (recordControlChange slot ct value now st).recordingStartTime = st.recordingStartTime ∧
    (recordControlChange slot ct value now st).isRecording = st.isRecording := by
  unfold recordControlChange
  split <;> exact ⟨rfl, rfl, rfl⟩

theorem lookupKeyTime_setKeyTime (l : List (ControlKey × Int)) (k k' : ControlKey) (t : Int) :
    lookupKeyTime (setKeyTime l k t) k' = if k = k' then some t else lookupKeyTime l k' := by
  induction l with
  | nil => by_cases h : k = k' <;> simp [setKeyTime, lookupKeyTime, h]
  | cons p rest ih =>
      by_cases h1 : p.1 = k <;> by_cases h2 : p.1 = k' <;> by_cases h3 : k = k' <;>
        simp_all [setKeyTime, lookupKeyTime]

end RecorderLemmas

/-- Throttle invariant for one `(slot, controlType)` key: every recorded
sample is stamped no later than the key's last-accepted wall-clock time
(relative to session start), and consecutive recorded samples are at least
25 ms apart. -/
def ThrottleInv (st : EngineState) (key : ControlKey) : Prop :=
  (∀ s ∈ recordedSamples st key.1 key.2,
      s.timestamp ≤ (lookupKeyTime st.lastRecordingTime key).getD 0 - st.recordingStartTime) ∧
  List.Chain' (fun a b => a.timestamp + 25 ≤ b.timestamp) (recordedSamples st key.1 key.2)

theorem throttleInv_step (c : RecCall) (st : EngineState) (key : ControlKey)
    (h : ThrottleInv st key) :
    ThrottleInv (recordControlChangeThrottled c.slot c.ct c.value c.now st) key := by
  unfold recordControlChangeThrottled
  by_cases hrec : st.isRecording = true
  · rw [if_pos hrec]
    dsimp only
    by_cases hacc : c.now - (lookupKeyTime st.lastRecordingTime (c.slot, c.ct)).getD 0 ≥ 25
    · rw [if_pos hacc]
      have hframe := recordControlChange_frame c.slot c.ct c.value c.now st
      have hsamp := recordedSamples_recordControlChange c.slot c.ct c.value c.now st hrec
        key.1 key.2
      constructor
      · intro s hs
        show s.timestamp ≤ (lookupKeyTime (setKeyTime _ (c.slot, c.ct) c.now) key).getD 0
          - (recordControlChange c.slot c.ct c.value c.now st).recordingStartTime
        rw [hframe.1, hframe.2.1, lookupKeyTime_setKeyTime]
        have hs' : s ∈ recordedSamples (recordControlChange c.slot c.ct c.value c.now st)
            key.1 key.2 := hs
        rw [hsamp] at hs'
        by_cases hkey : (c.slot, c.ct) = key
        · rw [if_pos hkey]
          have hk1 : key.1 = c.slot := by rw [← hkey]
          have hk2 : key.2 = c.ct := by rw [← hkey]
          have hbound := h.1
          have hacc' : 25 ≤ c.now - (lookupKeyTime st.lastRecordingTime key).getD 0 := by
            rw [← hkey]; exact hacc
          split at hs'
          · rcases List.mem_append.1 hs' with hmem | hmem
            · have := hbound s hmem
              simp only [Option.getD_some]
              omega
            · simp only [List.mem_singleton] at hmem
              subst hmem
              simp only [Option.getD_some]
              show c.now - st.recordingStartTime ≤ c.now - st.recordingStartTime
              omega
          · have := hbound s hs'
            simp only [Option.getD_some]
            omega
        · rw [if_neg hkey]
          have hcond : ¬(key.1 = c.slot ∧ key.2 = c.ct ∧
              (c.ct = CtrlType.volume ∨ c.ct = CtrlType.opacity)) := by
            intro hc
            exact hkey (Prod.ext hc.1.symm hc.2.1.symm)
          rw [if_neg hcond] at hs'
          exact h.1 s hs'
      · show List.Chain' _ (recordedSamples (recordControlChange c.slot c.ct c.value c.now st)
          key.1 key.2)
        rw [hsamp]
        split
        · rename_i hc
          rw [List.chain'_append]
          refine ⟨h.2, List.chain'_singleton _, ?_⟩
          intro x hx y hy
          simp only [List.head?_cons, Option.mem_def, Option.some_inj] at hy
          subst hy
          have hx' : x ∈ recordedSamples st key.1 key.2 :=
            List.mem_of_mem_getLast? hx
          have := h.1 x hx'
          have hk : (c.slot, c.ct) = key := Prod.ext hc.1.symm hc.2.1.symm
          have hacc' : 25 ≤ c.now - (lookupKeyTime st.lastRecordingTime key).getD 0 := by
            rw [← hk]; exact hacc
          show x.timestamp + 25 ≤ c.now - st.recordingStartTime
          omega
        · exact h.2
    · rw [if_neg hacc]; exact h
  · rw [if_neg hrec]; exact h

theorem throttleInv_processCalls (calls : List RecCall) :
    ∀ (st : EngineState) (key : ControlKey), ThrottleInv st key →
      ThrottleInv (processCalls calls st) key := by
  induction calls with
  | nil => intro st key h; exact h
  | cons c rest ih =>
      intro st key h
      exact ih _ key (throttleInv_step c st key h)

/-- C7 (amended): the recorder throttle, per `(slot, controlType)` key:
a call less than 25 ms after the key's last accepted call changes nothing
at all (the value is dropped, not coalesced); an accepted volume/opacity
call appends exactly one sample whose timestamp is the call time minus
`recordingStartTime` and whose value is the accepting call's value (so the
first value of each 25 ms window is the one persisted), and stamps the key
with the call time; consequently, over any call sequence, consecutive
persisted samples of one key are at least 25 ms apart — at most one sample
per 25 ms window. -/
theorem recorder_throttle_spec :
    (∀ (slot : Nat) (ct : CtrlType) (value now : Int) (st : EngineState),
        st.isRecording = true →
        now - (lookupKeyTime st.lastRecordingTime (slot, ct)).getD 0 < 25 →
        recordControlChangeThrottled slot ct value now st = st) ∧
    (∀ (slot : Nat) (ct : CtrlType) (value now : Int) (st : EngineState),
        st.isRecording = true → (ct = CtrlType.volume ∨ ct = CtrlType.opacity) →
        25 ≤ now - (lookupKeyTime st.lastRecordingTime (slot, ct)).getD 0 →
        recordedSamples (recordControlChangeThrottled slot ct value now st) slot ct
          = recordedSamples st slot ct ++ [⟨now - st.recordingStartTime, value⟩] ∧
        lookupKeyTime (recordControlChangeThrottled slot ct value now st).lastRecordingTime
          (slot, ct) = some now) ∧
    (∀ (calls : List RecCall) (st : EngineState) (key : ControlKey), ThrottleInv st key →
        List.Chain' (fun a b => a.timestamp + 25 ≤ b.timestamp)
          (recordedSamples (processCalls calls st) key.1 key.2)) := by
  refine ⟨?_, ?_, ?_⟩
  · intro slot ct value now st hrec hlt
    unfold recordControlChangeThrottled
    rw [if_pos hrec]
    dsimp only
    rw [if_neg (by omega)]
  · intro slot ct value now st hrec hvo hacc
    unfold recordControlChangeThrottled
    rw [if_pos hrec]
    dsimp only
    rw [if_pos (by omega)]
    constructor
    · show recordedSamples (recordControlChange slot ct value now st) slot ct = _
      rw [recordedSamples_recordControlChange slot ct value now st hrec slot ct,
        if_pos ⟨rfl, rfl, hvo⟩]
    · show lookupKeyTime (setKeyTime (recordControlChange slot ct value now st).lastRecordingTime
        (slot, ct) now) (slot, ct) = some now
      rw [lookupKeyTime_setKeyTime, if_pos rfl]
  · intro calls st key h
    exact (throttleInv_processCalls calls st key h).2

/-- Fresh recording state used for the C7 counterexample and witness:
recording started at wall-clock 1000 with slot 0 loaded. -/
def c7State : EngineState :=
  { videos := [some c2VideoA],
    recordingSessions := [], currentRecordingData :=
      ⟨1, 1000, 60000, [(0, ⟨[], [], []⟩)]⟩,
    isRecording := true, isPlaybackMode := false, hijackedControls := [],
    lastRecordingTime := [], recordingStartTime := 1000, currentSession := 1 }

/-- Three volume moves on slot 0 at wall-clock 1000, 1010, 1025: the first
opens a 25 ms window (accepted), the second falls inside it (dropped), the
third is accepted. -/
def c7Calls : List RecCall :=
  [⟨0, .volume, 10, 1000⟩, ⟨0, .volume, 20, 1010⟩, ⟨0, .volume, 30, 1025⟩]

/-- C7 counterexample: after the three calls the persisted log is
[(0,10),(25,30)] — the sample persisted for the window [0,25) carries the
window's FIRST value 10, and the last value sent inside that window (20, at
t=1010) appears in no persisted sample, contradicting
"last-value-wins within the window". -/
theorem recorder_throttle_claim_false :
    recordedSamples (processCalls c7Calls c7State) 0 CtrlType.volume
      = [⟨0, 10⟩, ⟨25, 30⟩] ∧
    ((recordedSamples (processCalls c7Calls c7State) 0 CtrlType.volume).all
      fun s => s.value ≠ 20) = true := by
  decide

theorem recorder_throttle_spec_witness :
    recordControlChangeThrottled 0 CtrlType.volume 20 1010
        (processCalls [⟨0, .volume, 10, 1000⟩] c7State)
      = processCalls [⟨0, .volume, 10, 1000⟩] c7State ∧
    recordedSamples (recordControlChangeThrottled 0 CtrlType.volume 10 1000 c7State)
        0 CtrlType.volume
      = recordedSamples c7State 0 CtrlType.volume ++ [⟨0, 10⟩] ∧
    List.Chain' (fun a b => a.timestamp + 25 ≤ b.timestamp)
      (recordedSamples (processCalls c7Calls c7State) 0 CtrlType.volume) := by
  refine ⟨recorder_throttle_spec.1 0 CtrlType.volume 20 1010 _ (by decide) (by decide), ?_, ?_⟩
  · have h := (recorder_throttle_spec.2.1 0 CtrlType.volume 10 1000 c7State rfl
      (Or.inl rfl) (by decide)).1
    simpa using h
  · refine recorder_throttle_spec.2.2 c7Calls c7State (0, CtrlType.volume) ?_
    constructor
    · intro s hs
      simp [recordedSamples, c7State, getSlotData, ctrlSamples] at hs
    · simp [recordedSamples, c7State, getSlotData, ctrlSamples]

/-! ## Session lifecycle (create.html lines 1589-1920, 3417-3464, 3608-3630)

`startRecordingSession` / `startCountdown` / `startActualRecording` /
`stopRecording` / `startPlaybackMode` / `resetInterface` /
`loadAndPlayArtPiece` as state transformers.  The countdown, timers,
player seeks and all DOM work are presentation-only; the wall clock is an
explicit argument.  `startRecordingSession`'s two early returns (alerts)
are modelled as structured errors paired with the unchanged state. -/

/-- The errors `startRecordingSession` surfaces via `alert` before touching
any recording state. -/
inductive RecordingError where
  | noVideos
  | missingKeyframe (slots : List Nat)
deriving DecidableEq

/-- The `videosWithoutKeyframes` collection of `startRecordingSession`
(create.html:1597-1606): 1-based slot numbers (`actualSlot + 1`, the
source's "user-friendly numbering") of loaded videos having no keyframe
set, in slot order (`videos.indexOf` on distinct JS objects returns each
video's own slot). -/
def offendingSlots : Nat → List (Option Video) → List Nat
  | _, [] => []
  | slot, none :: rest => offendingSlots (slot + 1) rest
  | slot, some v :: rest =>
      (if v.keyframes.any (fun keyframe => keyframe.isSome) then [] else [slot + 1])
        ++ offendingSlots (slot + 1) rest

/-- `startPlaybackMode()` (create.html:1894): no-op with no finalized
session; otherwise enters overdub playback mode (the 100 ms replay
interval itself is the tick loop driving the replayer functions above). -/
def startPlaybackMode (st : EngineState) : EngineState :=
  if st.recordingSessions = [] then st else { st with isPlaybackMode := true }

/-- `startRecordingSession()` (create.html:1589): fails (alert, early
return, state untouched) when no video is loaded or some loaded video has
no keyframe at all; otherwise sets the session ordinal and, for an overdub
(not-first) session, starts playback mode, then hands off to the countdown
(whose only engine-state effect is the later `startActualRecording`). -/
def startRecordingSessionRun (st : EngineState) : EngineState × Option RecordingError :=
  if st.videos.any (fun v => v.isSome) = false then (st, some .noVideos)
  else
    let offending := offendingSlots 0 st.videos
    if offending ≠ [] then (st, some (.missingKeyframe offending))
    else
      let isFirstSession := st.recordingSessions.length = 0
      let st₁ := { st with currentSession := st.recordingSessions.length + 1 }
      if isFirstSession then (st₁, none) else (startPlaybackMode st₁, none)

/-- The `controlData` initialisation of `startActualRecording`
(create.html:1736-1744): an empty log per loaded slot. -/
def initControlData : Nat → List (Option Video) → List (Nat × SlotData)
  | _, [] => []
  | slot, none :: rest => initControlData (slot + 1) rest
  | slot, some _ :: rest => (slot, ⟨[], [], []⟩) :: initControlData (slot + 1) rest

/-- `startActualRecording()` (create.html:1669): starts the clock, resets
the throttle map, clears the hijack set for overdub sessions
(`unlockControlsForOverdubbing`, create.html:2375) and initialises
`currentRecordingData`. -/
def startActualRecording (now : Int) (st : EngineState) : EngineState :=
  let st₁ := { st with isRecording := true, recordingStartTime := now, lastRecordingTime := [] }
  let st₂ := if st₁.currentSession > 1 then { st₁ with hijackedControls := [] } else st₁
  { st₂ with currentRecordingData :=
      { session := st₂.currentSession, startTime := now, duration := 60000,
        controlData := initControlData 0 st₂.videos } }

/-- `stopRecording()` (create.html:1783): leaves recording and playback
mode, clears the hijack set and finalizes the in-progress session onto
`recordingSessions` with its actual elapsed duration. -/
def stopRecording (now : Int) (st : EngineState) : EngineState :=
  { st with
    isRecording := false, isPlaybackMode := false, hijackedControls := [],
    recordingSessions := st.recordingSessions ++
      [{ st.currentRecordingData with duration := now - st.recordingStartTime }] }

/-- `resetInterface()` (create.html:3608): removes all videos and resets
the recording data (`recordingSessions = []`, `currentSession = 0`,
hijack set cleared, playback mode off). -/
def resetInterface (st : EngineState) : EngineState :=
  { st with
    videos := List.replicate 6 none, recordingSessions := [], currentSession := 0,
    hijackedControls := [], isPlaybackMode := false }

/-- `loadAndPlayArtPiece(composition)` (create.html:3417-3464): resets the
interface, loads the composition's videos (played through the external
players) and sets `recordingSessions = composition.sessions`. -/
def loadAndPlayArtPiece (loadedVideos : List (Option Video)) (sessions : List Session)
    (st : EngineState) : EngineState :=
  let st₁ := resetInterface st
  { st₁ with videos := loadedVideos, recordingSessions := sessions }

/-- One engine transition: any of the state-mutating entry points of the
recording/overdub engine.  `videosChanged` covers every mutation that only
touches the `videos` array (loading a video, lock/link toggles, the live
volume/opacity value writes including `updateLinkedControls`). -/
inductive EngineStep : EngineState → EngineState → Prop where
  | startSession (st : EngineState) : EngineStep st (startRecordingSessionRun st).1
  | actualRecording (st : EngineState) (now : Int) : EngineStep st (startActualRecording now st)
  | playbackMode (st : EngineState) : EngineStep st (startPlaybackMode st)
  | stopRec (st : EngineState) (now : Int) : EngineStep st (stopRecording now st)
  | hijack (st : EngineState) (slot : Nat) (ct : CtrlType) (now : Int) :
      EngineStep st (hijackControl slot ct now st)
  | recordChange (st : EngineState) (slot : Nat) (ct : CtrlType) (value now : Int) :
      EngineStep st (recordControlChange slot ct value now st)
  | recordThrottledStep (st : EngineState) (slot : Nat) (ct : CtrlType) (value now : Int) :
      EngineStep st (recordControlChangeThrottled slot ct value now st)
  | videosChanged (st : EngineState) (vs : List (Option Video)) :
      EngineStep st { st with videos := vs }
  | reset (st : EngineState) : EngineStep st (resetInterface st)
  | loadArt (st : EngineState) (vs : List (Option Video)) (sessions : List Session) :
      EngineStep st (loadAndPlayArtPiece vs sessions st)

/-- The page-load state of create.html (lines 440-470): no videos, no
sessions, all flags down. -/
def initEngine : EngineState :=
  { videos := List.replicate 6 none, recordingSessions := [],
    currentRecordingData := ⟨0, 0, 60000, []⟩, isRecording := false, isPlaybackMode := false,
    hijackedControls := [], lastRecordingTime := [], recordingStartTime := 0,
    currentSession := 0 }

/-- States the engine can actually be in. -/
def ReachableEngine (st : EngineState) : Prop :=
  Relation.ReflTransGen EngineStep initEngine st

section LifecycleLemmas

theorem mem_offendingSlots :
    ∀ (l : List (Option Video)) (slot₀ n : Nat),
      n ∈ offendingSlots slot₀ l ↔
        ∃ i v, l[i]? = some (some v) ∧ v.keyframes.any (fun k => k.isSome) = false ∧
          n = slot₀ + i + 1 := by
  intro l
  induction l with
  | nil => intro slot₀ n; simp [offendingSlots]
  | cons v rest ih =>
      intro slot₀ n
      cases v with
      | none =>
          simp only [offendingSlots]
          rw [ih (slot₀ + 1) n]
          constructor
          · rintro ⟨i, w, hi, hkf, rfl⟩
            exact ⟨i + 1, w, by simpa using hi, hkf, by omega⟩
          · rintro ⟨i, w, hi, hkf, rfl⟩
            cases i with
            | zero => simp at hi
            | succ i' => exact ⟨i', w, by simpa using hi, hkf, by omega⟩
      | some w =>
          simp only [offendingSlots, List.mem_append]
          constructor
          · intro h
            rcases h with h | h
            · split at h
              · simp at h
              · rename_i hany
                simp only [List.mem_singleton] at h
                subst h
                refine ⟨0, w, by simp, ?_, by omega⟩
                simpa using hany
            · rcases (ih (slot₀ + 1) n).1 h with ⟨i, w', hi, hkf, rfl⟩
              exact ⟨i + 1, w', by simpa using hi, hkf, by omega⟩
          · rintro ⟨i, w', hi, hkf, hn⟩
            cases i with
            | zero =>
                left
                simp only [List.getElem?_cons_zero, Option.some_inj] at hi
                rw [if_neg (by rw [hi]; simp [hkf])]
                simp only [List.mem_singleton]
                omega
            | succ i' =>
                right
                exact (ih (slot₀ + 1) n).2 ⟨i', w', by simpa using hi, hkf, by omega⟩

theorem any_isSome_of_videoAt {videos : List (Option Video)} {slot : Nat} {v : Video}
    (h : videoAt videos slot = some v) : videos.any (fun x => x.isSome) = true := by
  have h' := videoAt_eq_some h
  rw [List.any_eq_true]
  rw [← List.get?_eq_getElem?] at h'
  exact ⟨some v, List.get?_mem h', rfl⟩

end LifecycleLemmas

/-- C8: Missing keyframe blocks session start: if some loaded track has no
keyframe set at all, `startRecordingSession` fails with a MissingKeyframe
error whose slot list contains exactly the (1-based, as displayed) numbers
of the offending loaded slots — including the given one — creates no
session and leaves the entire engine state (recordingSessions, isRecording,
currentRecordingData included) unchanged. -/
theorem missing_keyframe_blocks_start (st : EngineState) (slot : Nat) (v : Video)
    (hv : videoAt st.videos slot = some v)
    (hkf : v.keyframes.any (fun k => k.isSome) = false) :
    ∃ L, startRecordingSessionRun st = (st, some (.missingKeyframe L)) ∧
      (slot + 1) ∈ L ∧
      (∀ n, n ∈ L ↔ ∃ s w, st.videos[s]? = some (some w) ∧
        w.keyframes.any (fun k => k.isSome) = false ∧ n = s + 1) := by
  have hmem : (slot + 1) ∈ offendingSlots 0 st.videos :=
    (mem_offendingSlots st.videos 0 (slot + 1)).2
      ⟨slot, v, videoAt_eq_some hv, hkf, by omega⟩
  refine ⟨offendingSlots 0 st.videos, ?_, hmem, ?_⟩
  · unfold startRecordingSessionRun
    rw [if_neg (by rw [any_isSome_of_videoAt hv]; simp)]
    dsimp only
    rw [if_pos (by intro he; rw [he] at hmem; exact List.not_mem_nil _ hmem)]
  · intro n
    rw [mem_offendingSlots st.videos 0 n]
    constructor
    · rintro ⟨i, w, hi, hw, rfl⟩
      exact ⟨i, w, hi, hw, by omega⟩
    · rintro ⟨s, w, hs, hw, rfl⟩
      exact ⟨s, w, hs, hw, by omega⟩

/-- State used to witness the missing-keyframe theorem: one loaded video
with all three keyframes unset. -/
def c8State : EngineState :=
  { initEngine with videos := [some { c2VideoA with keyframes := [none, none, none] }] }

theorem missing_keyframe_blocks_start_witness :
    ∃ L, startRecordingSessionRun c8State = (c8State, some (.missingKeyframe L)) ∧ 1 ∈ L := by
  obtain ⟨L, h1, h2, _⟩ := missing_keyframe_blocks_start c8State 0
    { c2VideoA with keyframes := [none, none, none] } rfl (by decide)
  exact ⟨L, h1, h2⟩

theorem hijackControl_pb_len (slot : Nat) (ct : CtrlType) (now : Int) (st : EngineState) :
    (hijackControl slot ct now st).isPlaybackMode = st.isPlaybackMode ∧
    (hijackControl slot ct now st).recordingSessions.length = st.recordingSessions.length := by
  unfold hijackControl
  split
  · exact ⟨foldl_hijackStep_isPlaybackMode _ _ st, foldl_hijackStep_sessions_length _ _ st⟩
  · exact ⟨rfl, rfl⟩

theorem recordControlChange_sessions_pb (slot : Nat) (ct : CtrlType) (value now : Int)
    (st : EngineState) :
    (recordControlChange slot ct value now st).recordingSessions = st.recordingSessions ∧
    (recordControlChange slot ct value now st).isPlaybackMode = st.isPlaybackMode := by
  unfold recordControlChange
  split <;> exact ⟨rfl, rfl⟩

theorem recordControlChangeThrottled_sessions_pb (slot : Nat) (ct : CtrlType) (value now : Int)
    (st : EngineState) :
    (recordControlChangeThrottled slot ct value now st).recordingSessions
      = st.recordingSessions ∧
    (recordControlChangeThrottled slot ct value now st).isPlaybackMode = st.isPlaybackMode := by
  unfold recordControlChangeThrottled
  split
  · dsimp only
    split
    · exact ⟨(recordControlChange_sessions_pb slot ct value now st).1,
        (recordControlChange_sessions_pb slot ct value now st).2⟩
    · exact ⟨rfl, rfl⟩
  · exact ⟨rfl, rfl⟩

theorem startActualRecording_sessions_pb (now : Int) (st : EngineState) :
    (startActualRecording now st).recordingSessions = st.recordingSessions ∧
    (startActualRecording now st).isPlaybackMode = st.isPlaybackMode := by
  unfold startActualRecording
  dsimp only
  split <;> exact ⟨rfl, rfl⟩

/-- The reachability invariant behind first-session safety: playback
(overdub) mode is only ever on when at least one finalized session
exists. -/
theorem engine_sessions_empty_no_playback (st : EngineState) (h : ReachableEngine st) :
    st.recordingSessions = [] → st.isPlaybackMode = false := by
  induction h with
  | refl => intro _; rfl
  | tail _ hstep ih =>
      rename_i b c _
      cases hstep with
      | startSession =>
          unfold startRecordingSessionRun
          split
          · exact ih
          · dsimp only
            split
            · exact ih
            · split
              · exact ih
              · unfold startPlaybackMode
                split
                · exact ih
                · rename_i hne
                  intro hc
                  exact absurd hc hne
      | actualRecording now =>
          intro hc
          rw [(startActualRecording_sessions_pb now b).2]
          exact ih (by rw [← (startActualRecording_sessions_pb now b).1]; exact hc)
      | playbackMode =>
          unfold startPlaybackMode
          split
          · exact ih
          · rename_i hne
            intro hc
            exact absurd hc hne
      | stopRec now => intro _; rfl
      | hijack slot ct now =>
          intro hc
          have hlen := (hijackControl_pb_len slot ct now b).2
          rw [hc] at hlen
          simp only [List.length_nil] at hlen
          have hb : b.recordingSessions = [] := List.length_eq_zero.1 hlen.symm
          rw [(hijackControl_pb_len slot ct now b).1]
          exact ih hb
      | recordChange slot ct value now =>
          intro hc
          rw [(recordControlChange_sessions_pb slot ct value now b).2]
          exact ih (by rw [← (recordControlChange_sessions_pb slot ct value now b).1]; exact hc)
      | recordThrottledStep slot ct value now =>
          intro hc
          rw [(recordControlChangeThrottled_sessions_pb slot ct value now b).2]
          exact ih
            (by rw [← (recordControlChangeThrottled_sessions_pb slot ct value now b).1]; exact hc)
      | videosChanged vs => exact ih
      | reset => intro _; rfl
      | loadArt vs sessions => intro _; rfl

/-- C10: First-session safety: `hijackControl` is a complete no-op (no
hijack, no truncation) whenever overdub playback mode is off; and playback
mode can only be on in a reachable state that has at least one finalized
session — so in any reachable state with no finalized session, every
control touch leaves the engine state untouched: truncation of session
data can only happen during an overdub session. -/
theorem first_session_never_hijacks :
    (∀ (st : EngineState) (slot : Nat) (ct : CtrlType) (now : Int),
        st.isPlaybackMode = false → hijackControl slot ct now st = st) ∧
    (∀ st : EngineState, ReachableEngine st → st.recordingSessions = [] →
        st.isPlaybackMode = false ∧
        ∀ (slot : Nat) (ct : CtrlType) (now : Int), hijackControl slot ct now st = st) := by
  have hnoop : ∀ (st : EngineState) (slot : Nat) (ct : CtrlType) (now : Int),
      st.isPlaybackMode = false → hijackControl slot ct now st = st := by
    intro st slot ct now hpb
    unfold hijackControl
    rw [if_neg (by rw [hpb]; simp)]
  refine ⟨hnoop, ?_⟩
  intro st hreach hempty
  have hpb := engine_sessions_empty_no_playback st hreach hempty
  exact ⟨hpb, fun slot ct now => hnoop st slot ct now hpb⟩

theorem first_session_never_hijacks_witness :
    initEngine.isPlaybackMode = false ∧
    hijackControl 0 CtrlType.volume 5000 initEngine = initEngine := by
  have h := first_session_never_hijacks.2 initEngine Relation.ReflTransGen.refl rfl
  exact ⟨h.1, h.2 0 CtrlType.volume 5000⟩

/-! ## Compositions, export and re-import
(create.html:2940-2965, gallery.js:303-330 and 462-521)

A saved ArtPiece serializes through `JSON.stringify`/`JSON.parse`, which
round-trips the plain data (integer-valued numbers, strings, arrays)
exactly; the structures below are that data.  `exportCut` wraps the cut in
the versioned export envelope; `processImportedData` validates, checks for
duplicates against the gallery's saved cuts, regenerates the id and adds
the import metadata — all fresh strings (`Date.now()`-based id, ISO timestamp,
locale time suffix) are explicit arguments. -/

/-- A track reference inside a saved ArtPiece
(`saveCompositionWithThumbnailSilent`, create.html:2947). -/
structure CompVideo where
  url : String
  videoId : String
  title : String
  keyframes : List (Option Rat)
deriving DecidableEq

/-- The content `generateCompositionHash` (gallery.js:781) feeds into its
32-bit string hash: video urls/ids/keyframes and, per session,
`session.actions || []` — recorded sessions have no `actions` field, so
that component is always the empty list — and the session duration.  The
JS reduces `JSON.stringify` of this to a base-36 hash string; equal
`HashData` gives equal hash (we keep the pre-hash content, ignoring hash
collisions, which could only make the duplicate check fire spuriously). -/
structure HashData where
  videos : List (String × String × List (Option Rat))
  sessions : List (List Unit × Int)
deriving DecidableEq

/-- A saved ArtPiece (created by create.html's save path; the last
three fields are added by the gallery import path and absent on save). -/
structure ArtPiece where
  id : String
  name : String
  createdAt : String
  videos : List CompVideo
  sessions : List Session
  duration : Int
  thumbnail : String
  importedAt : Option String := none
  originalName : Option String := none
  compositionHash : Option HashData := none
deriving DecidableEq

/-- The export envelope built by `exportCut` (gallery.js:303). -/
structure ExportData where
  version : String
  exportDate : String
  exportedBy : String
  artPiece : ArtPiece
deriving DecidableEq

/-- `exportCut` (gallery.js:303): wraps the saved cut, unchanged, in the
versioned envelope (then serialized to the `.splice` file). -/
def exportCut (cut : ArtPiece) (exportDate : String) : ExportData :=
  { version := "1.0", exportDate := exportDate, exportedBy := "Splice", artPiece := cut }

/-- `generateCompositionHash` (gallery.js:781), up to the final
string-hash step (see `HashData`). -/
def generateCompositionHash (artPiece : ArtPiece) : HashData :=
  { videos := artPiece.videos.map fun v => (v.url, v.videoId, v.keyframes),
    sessions := artPiece.sessions.map fun s => (([] : List Unit), s.duration) }

/-- `processImportedData` (gallery.js:462): unwrap the envelope, reject
empty id/name (the JS falsy check), reject duplicates by composition hash,
then store the art piece with a fresh id, import metadata, and a
time-suffixed name when a cut with the same original name exists.  The
sessions and videos pass through untouched. -/
def processImportedData (savedCuts : List ArtPiece) (importData : ExportData)
    (newId importedAt timeSuffix : String) : Option ArtPiece :=
  let artPiece := importData.artPiece
  if artPiece.id = "" ∨ artPiece.name = "" then none
  else
    let incomingHash := generateCompositionHash artPiece
    if savedCuts.any fun cut => cut.compositionHash = some incomingHash then none
    else
      let a₁ := { artPiece with
        id := newId, importedAt := some importedAt,
        originalName := some artPiece.name, compositionHash := some incomingHash }
      let a₂ := if savedCuts.any fun cut => cut.originalName = some artPiece.name then
          { a₁ with name := artPiece.name ++ " " ++ timeSuffix }
        else a₁
      some a₂

/-- The `(slot, controlType)` sample list of a finalized session. -/
def sessionCtrlList (s : Session) (slot : Nat) (ct : CtrlType) : List Sample :=
  ctrlSamples ((getSlotData s.controlData slot).getD ⟨[], [], []⟩) ct

/-- The volume target the overdub replay tick leaves applied for a slot:
`playbackSessionData` runs over the sessions in recording order, each
session's `playbackVolumeData` writing its value when it has one, so the
last session with a defined value wins within a tick. -/
def overdubEffectiveVolume (sessions : List Session) (slot : Nat) (t : Int) : Option Int :=
  sessions.foldl (fun acc s =>
    match interpVolumeTarget (sessionCtrlList s slot .volume) t with
    | some v => some v
    | none => acc) none

/-- Same for opacity in the overdub replayer (`playbackOpacityData`,
create.html). -/
def overdubEffectiveOpacity (sessions : List Session) (slot : Nat) (t : Int) : Option Int :=
  sessions.foldl (fun acc s =>
    match createOpacityTarget (sessionCtrlList s slot .opacity) t with
    | some v => some v
    | none => acc) none

/-- The volume target the playback page leaves applied
(`applyRecordedDataAtTime` → `playbackVolumeData`, playback.js). -/
def playbackPageEffectiveVolume (sessions : List Session) (slot : Nat) (t : Int) : Option Int :=
  sessions.foldl (fun acc s =>
    match playbackJsVolumeTarget (sessionCtrlList s slot .volume) t with
    | some v => some v
    | none => acc) none

/-- Same for opacity on the playback page (`playbackOpacityData`,
playback.js). -/
def playbackPageEffectiveOpacity (sessions : List Session) (slot : Nat) (t : Int) : Option Int :=
  sessions.foldl (fun acc s =>
    match playbackJsOpacityTarget (sessionCtrlList s slot .opacity) t with
    | some v => some v
    | none => acc) none

/-- Session with two volume samples 100 ms apart, on which the two
replayers compute different values. -/
def c5Session : Session :=
  ⟨1, 0, 60000, [(0, ⟨[⟨0, 50⟩, ⟨100, 80⟩], [], []⟩)]⟩

/-- C5 counterexample: on the same session data — volume samples (0,50)
and (100,80) — at elapsed 50 the overdub-mode replayer computes the
interpolated 65 (the samples are less than 500 ms apart) while the
playback-page replayer, which never interpolates, computes 50: the two
replayers do not compute the same values from the same session data. -/
theorem replayers_disagree :
    overdubEffectiveVolume [c5Session] 0 50 = some 65 ∧
    playbackPageEffectiveVolume [c5Session] 0 50 = some 50 ∧
    (some (65 : Int) ≠ some (50 : Int)) := by
  refine ⟨?_, by decide, by decide⟩
  have h1 : interpVolumeTarget [⟨0, 50⟩, ⟨100, 80⟩] 50
      = some (jsRound ((50 : Rat) + ((30 : Int) : Rat) * (((50 : Int) : Rat) / ((100 : Int) : Rat)))) := by
    norm_num [interpVolumeTarget, findPoints]
  have h2 : jsRound ((50 : Rat) + ((30 : Int) : Rat) * (((50 : Int) : Rat) / ((100 : Int) : Rat)))
      = 65 := by
    apply jsRound_eq <;> norm_num
  show (match interpVolumeTarget (sessionCtrlList c5Session 0 .volume) 50 with
    | some v => some v
    | none => none) = some 65
  have hl : sessionCtrlList c5Session 0 .volume = [⟨0, 50⟩, ⟨100, 80⟩] := by
    simp [sessionCtrlList, c5Session, getSlotData, ctrlSamples]
  rw [hl, h1, h2]

/-- C5 (amended): re-importing an exported ArtPiece (into a gallery with
no duplicate) preserves its videos, sessions and duration exactly — the id,
name and import metadata may change — so replaying the re-imported
composition with either replayer, sampled at 100 ms steps over the full
60 s, produces exactly the values of the original.  The overdub-mode and
playback-page replayers, however, are NOT equivalent to each other (see the
counterexample): each one only reproduces its own output. -/
theorem export_import_roundtrip (cut : ArtPiece)
    (exportDate newId importedAt timeSuffix : String)
    (hid : cut.id ≠ "") (hname : cut.name ≠ "") :
    ∃ c', processImportedData [] (exportCut cut exportDate) newId importedAt timeSuffix
        = some c' ∧
      c'.sessions = cut.sessions ∧ c'.videos = cut.videos ∧ c'.duration = cut.duration ∧
      (∀ (slot : Nat) (n : Nat), n ≤ 600 →
        overdubEffectiveVolume c'.sessions slot (100 * (n : Int))
          = overdubEffectiveVolume cut.sessions slot (100 * (n : Int)) ∧
        overdubEffectiveOpacity c'.sessions slot (100 * (n : Int))
          = overdubEffectiveOpacity cut.sessions slot (100 * (n : Int)) ∧
        playbackPageEffectiveVolume c'.sessions slot (100 * (n : Int))
          = playbackPageEffectiveVolume cut.sessions slot (100 * (n : Int)) ∧
        playbackPageEffectiveOpacity c'.sessions slot (100 * (n : Int))
          = playbackPageEffectiveOpacity cut.sessions slot (100 * (n : Int))) := by
  refine ⟨{ cut with
      id := newId, importedAt := some importedAt,
      originalName := some cut.name, compositionHash := some (generateCompositionHash cut) },
    ?_, rfl, rfl, rfl, ?_⟩
  · unfold processImportedData exportCut
    dsimp only
    rw [if_neg (by simp [hid, hname]), if_neg (by simp), if_neg (by simp)]
  · intro slot n _
    exact ⟨rfl, rfl, rfl, rfl⟩

/-- Concrete composition for the round-trip witness. -/
def c5Cut : ArtPiece :=
  { id := "1693000000000", name := "demo", createdAt := "2024-01-01",
    videos := [⟨"https://example.test/v", "vid", "t", [some 5, none, none]⟩],
    sessions := [c5Session], duration := 60000, thumbnail := "" }

theorem export_import_roundtrip_witness :
    ∃ c', processImportedData [] (exportCut c5Cut "2024-01-02") "imported_1" "2024-01-02" "10:00"
        = some c' ∧ c'.sessions = c5Cut.sessions ∧
      overdubEffectiveVolume c'.sessions 0 (100 * ((3 : Nat) : Int))
        = overdubEffectiveVolume c5Cut.sessions 0 (100 * ((3 : Nat) : Int)) := by
  obtain ⟨c', h1, h2, _, _, h5⟩ := export_import_roundtrip c5Cut "2024-01-02" "imported_1"
    "2024-01-02" "10:00" (by decide) (by decide)
  exact ⟨c', h1, h2, (h5 0 3 (by omega)).1⟩
